import Mathlib

/-!
Verification of the `sched` command-line program (src/main.rs).

The program resolves a user-supplied commuter-rail line alias to a canonical
line code (`get_normalized_name`), scrapes the GO Transit full-schedules index
page for the matching PDF link (`find_pdf_link`), joins that link against the
index page URL (in `main`), and downloads the PDF into a managed temporary
file (`download_pdf`, `TempFile`).

The embedding below translates each of those functions into Lean. Strings are
Lean `String`s; Rust's `to_ascii_lowercase` is modelled by `lowerStr`; the
post-parse HTML structure that the scraper selectors traverse is modelled by
`HtmlDoc` / `Row` / `Anchor`; the filesystem touched by the downloader and the
temp-file manager is an explicit state value `FS` threaded through the
operations.
-/

/-- ASCII lowercasing of one character, as Rust's `to_ascii_lowercase` does it:
the 26 ASCII uppercase letters map to their lowercase forms, every other
character is unchanged. -/
def lowerChar (c : Char) : Char :=
  match c with
  | 'A' => 'a' | 'B' => 'b' | 'C' => 'c' | 'D' => 'd' | 'E' => 'e'
  | 'F' => 'f' | 'G' => 'g' | 'H' => 'h' | 'I' => 'i' | 'J' => 'j'
  | 'K' => 'k' | 'L' => 'l' | 'M' => 'm' | 'N' => 'n' | 'O' => 'o'
  | 'P' => 'p' | 'Q' => 'q' | 'R' => 'r' | 'S' => 's' | 'T' => 't'
  | 'U' => 'u' | 'V' => 'v' | 'W' => 'w' | 'X' => 'x' | 'Y' => 'y'
  | 'Z' => 'z'
  | other => other

/-- ASCII lowercasing of a string (Rust `str::to_ascii_lowercase`). -/
def lowerStr (s : String) : String :=
  ⟨s.data.map lowerChar⟩

/-- The ASCII lowercase letters: the image of `lowerChar` on characters it
actually changes. -/
def asciiLowercaseLetters : List Char :=
  ['a', 'b', 'c', 'd', 'e', 'f', 'g', 'h', 'i', 'j', 'k', 'l', 'm',
   'n', 'o', 'p', 'q', 'r', 's', 't', 'u', 'v', 'w', 'x', 'y', 'z']

theorem lowerChar_cases (c : Char) :
    lowerChar c = c ∨ lowerChar c ∈ asciiLowercaseLetters := by
  unfold lowerChar
  split
  all_goals first
    | (left; rfl)
    | (right; decide)

theorem lowerChar_fixed_of_lowercase (c : Char)
    (h : c ∈ asciiLowercaseLetters) : lowerChar c = c := by
  fin_cases h <;> rfl

theorem lowerChar_idem (c : Char) : lowerChar (lowerChar c) = lowerChar c := by
  rcases lowerChar_cases c with h | h
  · rw [h, h]
  · exact lowerChar_fixed_of_lowercase _ h

theorem lowerStr_idem (s : String) : lowerStr (lowerStr s) = lowerStr s := by
  show (⟨(s.data.map lowerChar).map lowerChar⟩ : String) = ⟨s.data.map lowerChar⟩
  rw [List.map_map]
  congr 1
  apply List.map_congr_left
  intro c _
  exact lowerChar_idem c

/-- The alias-resolution `match` inside `get_normalized_name` in src/main.rs:
an exact match of the already-lowercased input against the alias table, with
the default arm returning the input unchanged. -/
def lookupAlias (lower : String) : String :=
  match lower with
  | "lakeshore west" => "01-18"
  | "milton" => "21"
  | "kitchener" => "30-31-33"
  | "barrie" => "63-65-68"
  | "richmond hill" => "61"
  | "stouffville" => "70-71"
  | "lakeshore east" => "09-90"
  | "lw" => "01-18"
  | "mi" => "21"
  | "ki" => "30-31-33"
  | "ba" => "63-65-68"
  | "rh" => "61"
  | "st" => "70-71"
  | "le" => "09-90"
  | "1" => "01-18"
  | "01" => "01-18"
  | "18" => "01-18"
  | "30" => "30-31-33"
  | "31" => "30-31-33"
  | "33" => "30-31-33"
  | "63" => "63-65-68"
  | "65" => "63-65-68"
  | "68" => "63-65-68"
  | "70" => "70-71"
  | "71" => "70-71"
  | "9" => "09-90"
  | "09" => "09-90"
  | "90" => "09-90"
  | "41" => "41-45-47-48"
  | "45" => "41-45-47-48"
  | "47" => "41-45-47-48"
  | "48" => "41-45-47-48"
  | "52" => "52-54-56"
  | "54" => "52-54-56"
  | "56" => "52-54-56"
  | other => other

/-- `get_normalized_name` from src/main.rs: lowercase the input, then resolve
it through the alias table, passing unrecognized strings through unchanged. -/
def get_normalized_name (name : String) : String :=
  lookupAlias (lowerStr name)

/-- The alias table of `get_normalized_name`, grouped by canonical code:
each entry pairs a canonical line code with its alias class. -/
def aliasTable : List (String × List String) :=
  [("01-18", ["lakeshore west", "lw", "1", "01", "18"]),
   ("21", ["milton", "mi"]),
   ("30-31-33", ["kitchener", "ki", "30", "31", "33"]),
   ("63-65-68", ["barrie", "ba", "63", "65", "68"]),
   ("61", ["richmond hill", "rh"]),
   ("70-71", ["stouffville", "st", "70", "71"]),
   ("09-90", ["lakeshore east", "le", "9", "09", "90"]),
   ("41-45-47-48", ["41", "45", "47", "48"]),
   ("52-54-56", ["52", "54", "56"])]

/-- Every alias string appearing in the alias table. -/
def aliasKeys : List String :=
  aliasTable.flatMap fun e => e.2

/-- Every canonical code appearing in the alias table. -/
def canonicalCodes : List String :=
  aliasTable.map fun e => e.1

theorem lookupAlias_not_mem (l : String) (hl : l ∉ aliasKeys) :
    lookupAlias l = l := by
  unfold lookupAlias
  split
  all_goals first
    | rfl
    | (exact absurd (by decide) hl)

theorem lookupAlias_image (l : String) :
    lookupAlias l ∈ canonicalCodes ∨ lookupAlias l = l := by
  unfold lookupAlias
  split
  all_goals first
    | (left; decide)
    | (right; rfl)

theorem lookupAlias_canonical_fixed (c : String) (hc : c ∈ canonicalCodes) :
    lookupAlias (lowerStr c) = c := by
  fin_cases hc <;> rfl

theorem lookupAlias_table (e : String × List String) (he : e ∈ aliasTable)
    (a : String) (ha : a ∈ e.2) : lookupAlias a = e.1 := by
  fin_cases he <;> fin_cases ha <;> rfl

/-- The hardcoded index-page URL constant `URL` in src/main.rs. -/
def URL : String :=
  "https://www.gotransit.com/en/trip-planning/seeschedules/full-schedules"

/-- Whether a list of characters begins with a URI scheme: a scan that
succeeds on a colon and fails on a slash or the end of input. -/
def schemeScan : List Char → Bool
  | [] => false
  | c :: rest => if c = '/' then false else if c = ':' then true else schemeScan rest

/-- Whether a string is an absolute URL reference, one starting with a
scheme such as `https:`. -/
def isAbsoluteUrl (s : String) : Bool :=
  schemeScan s.data

/-- Whether the first list begins with the second. -/
def listStartsWith : List Char → List Char → Bool
  | _, [] => true
  | [], _ :: _ => false
  | c :: cs, d :: ds => c == d && listStartsWith cs ds

/-- Whether string `s` begins with string `p`. -/
def strStartsWith (s p : String) : Bool :=
  listStartsWith s.data p.data

/-- The scheme of a URL, colon included: `https:` for the index page URL. -/
def schemeOf (base : String) : String :=
  (⟨base.data.takeWhile fun c => c ≠ ':'⟩ : String) ++ ":"

/-- The scheme and authority of a URL: `https://www.gotransit.com` for the
index page URL. -/
def originOf (base : String) : String :=
  let afterScheme := (base.data.dropWhile fun c => c ≠ ':').drop 3
  schemeOf base ++ "//" ++ (⟨afterScheme.takeWhile fun c => c ≠ '/'⟩ : String)

/-- A URL truncated after its last slash: the directory against which a
relative path reference is resolved. -/
def dirOf (base : String) : String :=
  ⟨(base.data.reverse.dropWhile fun c => c ≠ '/').reverse⟩

/-- RFC 3986 reference resolution as the URL library performs it in `main`
(`Url::parse(URL).join(href)`), restricted to the reference shapes the index
page can produce: an absolute URL is kept, a protocol-relative reference
takes the base's scheme, an absolute path takes the base's origin, and a
relative path is resolved against the base's directory. -/
def urlJoin (base href : String) : String :=
  if isAbsoluteUrl href then href
  else if strStartsWith href "//" then schemeOf base ++ href
  else if strStartsWith href "/" then originOf base ++ href
  else dirOf base ++ href

/-- An anchor (`a`) element as the locator reads it: its inner HTML and its
optional `href` attribute. -/
structure Anchor where
  inner : String
  href : Option String
deriving DecidableEq

/-- A table row (`tr`) as the locator reads it: the inner HTML of its
`strong` descendants and its anchor descendants, in document order. -/
structure Row where
  strongs : List String
  anchors : List Anchor
deriving DecidableEq

/-- The parsed index document, reduced to what the selector
`table[class='content-page-table']>tbody` can return: the row lists of the
matching table bodies, in document order. -/
structure HtmlDoc where
  tbodies : List (List Row)
deriving DecidableEq

/-- The two error kinds `find_pdf_link` can produce: `ParseError` and
`ScheduleNotFoundError { name }` from src/main.rs. -/
inductive SchedError where
  | parseError
  | scheduleNotFound (name : String)
deriving DecidableEq

/-- The row loop of `find_pdf_link` (src/main.rs lines 115-127): for each
row take the first `strong` and the first `a` (failing with `ParseError`
when either is missing), return the anchor's `href` (failing with
`ParseError` when the attribute is missing) as soon as the lowercased
`strong` inner HTML or the lowercased anchor inner HTML equals the query,
and fall through to `ScheduleNotFoundError` when the rows run out. -/
def findInRows (name : String) : List Row → Except SchedError String
  | [] => .error (.scheduleNotFound name)
  | tr :: rest =>
    match tr.strongs.head? with
    | none => .error .parseError
    | some key =>
      match tr.anchors.head? with
      | none => .error .parseError
      | some link =>
        if (lowerStr key == name) || (lowerStr link.inner == name) then
          match link.href with
          | none => .error .parseError
          | some h => .ok h
        else
          findInRows name rest

/-- `find_pdf_link` from src/main.rs, past the page fetch and HTML parse:
take the first `table[class='content-page-table']>tbody` (failing with
`ParseError` when there is none) and run the row loop over its rows. -/
def find_pdf_link (doc : HtmlDoc) (name : String) : Except SchedError String :=
  match doc.tbodies.head? with
  | none => .error .parseError
  | some rows => findInRows name rows

/-- The locate pipeline as `main` uses it (src/main.rs lines 153-159):
`find_pdf_link`, then on success the returned `href` joined against the
index page URL as base. -/
def locate (doc : HtmlDoc) (name : String) : Except SchedError String :=
  match find_pdf_link doc name with
  | .ok href => .ok (urlJoin URL href)
  | .error e => .error e

/-- Whether a row is well formed for the locator: it has at least one
`strong` element and at least one anchor element. -/
def rowOk (r : Row) : Bool :=
  r.strongs.head?.isSome && r.anchors.head?.isSome

/-- The row-match test exactly as `find_pdf_link` evaluates it: the
lowercased label or the lowercased link label equals the query verbatim. -/
def rowMatch (r : Row) (name : String) : Bool :=
  match r.strongs.head?, r.anchors.head? with
  | some key, some link => (lowerStr key == name) || (lowerStr link.inner == name)
  | _, _ => false

/-- The case-insensitive row-match test in the spec's words: the label or
the link label equals the query after lowercasing both sides. -/
def rowMatchCI (r : Row) (name : String) : Bool :=
  match r.strongs.head?, r.anchors.head? with
  | some key, some link =>
      (lowerStr key == lowerStr name) || (lowerStr link.inner == lowerStr name)
  | _, _ => false

/-- The fixed temp-subdirectory name constant `TEMP_SUBDIR_NAME` in
src/main.rs. -/
def TEMP_SUBDIR_NAME : String := "sched"

/-- The filesystem state the downloader and the temp-file manager touch:
file contents by path, the set of existing directories, and the oracle sets
of paths on which directory creation or file removal fails. -/
structure FS where
  files : List (String × List Nat)
  dirs : List String
  failMkdir : List String
  failRemove : List String
deriving DecidableEq

/-- Content of the file at a path, when one exists. -/
def fsRead (fs : FS) (p : String) : Option (List Nat) :=
  (fs.files.find? fun e => e.1 == p).map fun e => e.2

/-- Write a file at a path, replacing any previous content. -/
def fsWrite (fs : FS) (p : String) (c : List Nat) : FS :=
  { fs with files := (p, c) :: fs.files.filter fun e => e.1 != p }

/-- `fs::create_dir_all`: fails on paths in the failure oracle, otherwise
records the directory as existing. -/
def createDirAll (fs : FS) (d : String) : Except Unit FS :=
  if d ∈ fs.failMkdir then .error () else .ok { fs with dirs := d :: fs.dirs }

/-- `fs::remove_file`: fails on paths in the failure oracle, otherwise
deletes every file stored at the path. -/
def removeFile (fs : FS) (p : String) : Except Unit FS :=
  if p ∈ fs.failRemove then .error ()
  else .ok { fs with files := fs.files.filter fun e => e.1 != p }

/-- A `TempFile` handle from src/main.rs: ownership of one filesystem
path. -/
structure TempFile where
  filename : String
deriving DecidableEq

/-- `TempFile::get` from src/main.rs: push `TEMP_SUBDIR_NAME` onto the
platform temp root, `create_dir_all` it with the failure swallowed by
`unwrap_or_default`, then push the file name and return the handle. -/
def tempFileGet (tmpRoot : String) (name : String) (fs : FS) : TempFile × FS :=
  let dir := tmpRoot ++ "/" ++ TEMP_SUBDIR_NAME
  let fs1 := match createDirAll fs dir with
    | .ok fs2 => fs2
    | .error _ => fs
  (⟨dir ++ "/" ++ name⟩, fs1)

/-- `Drop for TempFile` from src/main.rs: `remove_file` on the handle's
path, the failure swallowed by `unwrap_or_default`. -/
def tempFileDrop (tf : TempFile) (fs : FS) : FS :=
  match removeFile fs tf.filename with
  | .ok fs2 => fs2
  | .error _ => fs

/-- An HTTP response to the PDF GET request: reading its body bytes can
fail with a transport error. -/
structure HttpResponse where
  body : Except Unit (List Nat)

/-- `download_pdf` from src/main.rs: the GET request (its outcome is the
`getResult` input), then `temp_file.create()` which truncates the file at
the handle's path, then the body read, then `write_all` of the body
bytes. A transport error on the GET propagates before any file is touched;
a transport error on the body read leaves the truncated file behind. -/
def download_pdf (getResult : Except Unit HttpResponse) (tf : TempFile)
    (fs : FS) : Except Unit Unit × FS :=
  match getResult with
  | .error e => (.error e, fs)
  | .ok resp =>
    let fs1 := fsWrite fs tf.filename []
    match resp.body with
    | .error e => (.error e, fs1)
    | .ok content => (.ok (), fsWrite fs1 tf.filename content)

/-- The temp-file scope in `main` (src/main.rs lines 162-169): acquire the
handle with `TempFile::get`, run `download_pdf` against it, and drop the
handle when the scope ends, whether the download succeeded or failed. -/
def downloadScope (tmpRoot name : String) (getResult : Except Unit HttpResponse)
    (fs : FS) : Except Unit Unit × FS :=
  let acquired := tempFileGet tmpRoot name fs
  let ran := download_pdf getResult acquired.1 acquired.2
  (ran.1, tempFileDrop acquired.1 ran.2)

theorem find_filter_ne (l : List (String × List Nat)) (p : String) :
    ((l.filter fun e => e.1 != p).find? fun e => e.1 == p) = none := by
  induction l with
  | nil => rfl
  | cons e t ih =>
    by_cases h : e.1 = p
    · simp [List.filter_cons, h, ih]
    · simp only [List.filter_cons]
      have hne : (e.1 != p) = true := by simp [bne, h]
      rw [hne]
      simp only [if_pos]
      rw [List.find?_cons]
      have : (e.1 == p) = false := by simp [h]
      rw [this]
      exact ih

theorem fsRead_fsWrite_self (fs : FS) (p : String) (c : List Nat) :
    fsRead (fsWrite fs p c) p = some c := by
  simp [fsRead, fsWrite, List.find?_cons]

theorem fsRead_removeFile_self (fs fs2 : FS) (p : String)
    (h : removeFile fs p = .ok fs2) : fsRead fs2 p = none := by
  unfold removeFile at h
  by_cases hp : p ∈ fs.failRemove
  · simp [hp] at h
  · simp only [hp, if_neg, if_false] at h
    cases h
    simp [fsRead, find_filter_ne]

theorem tempFileGet_failRemove (root name : String) (fs : FS) :
    (tempFileGet root name fs).2.failRemove = fs.failRemove := by
  unfold tempFileGet createDirAll
  by_cases h : (root ++ "/" ++ TEMP_SUBDIR_NAME) ∈ fs.failMkdir
  · simp [h]
  · simp [h]

theorem download_pdf_failRemove (g : Except Unit HttpResponse) (tf : TempFile)
    (fs : FS) : (download_pdf g tf fs).2.failRemove = fs.failRemove := by
  cases g with
  | error e => rfl
  | ok resp =>
    cases hb : resp.body with
    | error e => simp [download_pdf, hb, fsWrite]
    | ok c => simp [download_pdf, hb, fsWrite]

theorem schemeScan_https (l : List Char) :
    schemeScan ('h' :: 't' :: 't' :: 'p' :: 's' :: ':' :: l) = true := by
  simp [schemeScan]

theorem urlJoin_URL_absolute (href : String) :
    isAbsoluteUrl (urlJoin URL href) = true := by
  unfold urlJoin
  split
  · rename_i h
    exact h
  · split
    · show schemeScan (schemeOf URL ++ href).data = true
      have hd : (schemeOf URL ++ href).data
          = 'h' :: 't' :: 't' :: 'p' :: 's' :: ':' :: href.data := rfl
      rw [hd]
      exact schemeScan_https _
    · split
      · show schemeScan (originOf URL ++ href).data = true
        have hd : (originOf URL ++ href).data
            = 'h' :: 't' :: 't' :: 'p' :: 's' :: ':'
              :: ("//www.gotransit.com".data ++ href.data) := rfl
        rw [hd]
        exact schemeScan_https _
      · show schemeScan (dirOf URL ++ href).data = true
        have hd : (dirOf URL ++ href).data
            = 'h' :: 't' :: 't' :: 'p' :: 's' :: ':'
              :: ("//www.gotransit.com/en/trip-planning/seeschedules/".data
                  ++ href.data) := rfl
        rw [hd]
        exact schemeScan_https _

theorem locate_single (rows : List Row) (name : String) :
    locate ⟨[rows]⟩ name
      = match findInRows name rows with
        | .ok href => .ok (urlJoin URL href)
        | .error e => .error e := rfl

theorem findInRows_skip (r : Row) (rest : List Row) (name : String)
    (hok : rowOk r = true) (hm : rowMatch r name = false) :
    findInRows name (r :: rest) = findInRows name rest := by
  rcases hk : r.strongs.head? with _ | key
  · rw [rowOk, hk] at hok
    simp at hok
  · rcases ha : r.anchors.head? with _ | link
    · rw [rowOk, hk, ha] at hok
      simp at hok
    · have hmb : ((lowerStr key == name) || (lowerStr link.inner == name)) = false := by
        simpa [rowMatch, hk, ha] using hm
      simp [findInRows, hk, ha, hmb]

theorem findInRows_pre (pre rest : List Row) (name : String)
    (hpre : ∀ p ∈ pre, rowOk p = true ∧ rowMatch p name = false) :
    findInRows name (pre ++ rest) = findInRows name rest := by
  induction pre with
  | nil => rfl
  | cons p t ih =>
    have hp := hpre p (by simp)
    rw [List.cons_append, findInRows_skip p _ name hp.1 hp.2]
    exact ih fun q hq => hpre q (by simp [hq])

theorem findInRows_hit (r : Row) (rest : List Row) (name : String) (link : Anchor)
    (hm : rowMatch r name = true) (ha : r.anchors.head? = some link) :
    findInRows name (r :: rest)
      = match link.href with
        | none => .error .parseError
        | some h => .ok h := by
  rcases hk : r.strongs.head? with _ | key
  · simp [rowMatch, hk] at hm
  · have hmb : ((lowerStr key == name) || (lowerStr link.inner == name)) = true := by
      simpa [rowMatch, hk, ha] using hm
    simp [findInRows, hk, ha, hmb]

theorem findInRows_bad (r : Row) (rest : List Row) (name : String)
    (h : rowOk r = false) : findInRows name (r :: rest) = .error .parseError := by
  rcases hk : r.strongs.head? with _ | key
  · simp [findInRows, hk]
  · rcases ha : r.anchors.head? with _ | link
    · simp [findInRows, hk, ha]
    · rw [rowOk, hk, ha] at h
      simp at h

theorem rowMatch_imp_CI (r : Row) (name : String) (h : rowMatch r name = true) :
    rowMatchCI r name = true := by
  rcases hk : r.strongs.head? with _ | key
  · simp [rowMatch, hk] at h
  · rcases ha : r.anchors.head? with _ | link
    · simp [rowMatch, hk, ha] at h
    · simp only [rowMatch, hk, ha] at h
      simp only [rowMatchCI, hk, ha]
      rw [Bool.or_eq_true] at h ⊢
      rcases h with h | h
      · left
        rw [beq_iff_eq] at h ⊢
        rw [← h, lowerStr_idem]
      · right
        rw [beq_iff_eq] at h ⊢
        rw [← h, lowerStr_idem]

/-- C2: for every alias listed in any alias class of the alias table, and
for any case variation of that alias, `get_normalized_name` returns the
class's canonical code. -/
theorem normalize_alias_classes :
    ∀ e ∈ aliasTable, ∀ a ∈ e.2, ∀ x : String,
      lowerStr x = a → get_normalized_name x = e.1 := by
  intro e he a ha x hx
  unfold get_normalized_name
  rw [hx]
  exact lookupAlias_table e he a ha

/-- Witness for C2: the mixed-case alias `Lakeshore West` normalizes to the
canonical code `01-18`. -/
theorem normalize_alias_classes_witness :
    get_normalized_name "Lakeshore West" = "01-18" :=
  normalize_alias_classes ("01-18", ["lakeshore west", "lw", "1", "01", "18"])
    (by decide) "lakeshore west" (by decide) "Lakeshore West" (by decide)

/-- C7: for every input string whose lowercased form is not an alias-table
key, `get_normalized_name` returns the lowercased input unchanged (and,
being a total function into `String`, never signals an error). -/
theorem normalize_unknown_passthrough :
    ∀ x : String, lowerStr x ∉ aliasKeys → get_normalized_name x = lowerStr x := by
  intro x hx
  unfold get_normalized_name
  exact lookupAlias_not_mem _ hx

/-- Witness for C7: the unknown name `Union Pearson` passes through as its
lowercased form. -/
theorem normalize_unknown_passthrough_witness :
    get_normalized_name "Union Pearson" = "union pearson" :=
  (normalize_unknown_passthrough "Union Pearson" (by decide)).trans (by decide)

/-- C8: `get_normalized_name` is idempotent: normalizing a second time
changes nothing. -/
theorem normalize_idempotent (x : String) :
    get_normalized_name (get_normalized_name x) = get_normalized_name x := by
  unfold get_normalized_name
  rcases lookupAlias_image (lowerStr x) with h | h
  · exact lookupAlias_canonical_fixed _ h
  · rw [h, lowerStr_idem]
    exact h

/-- C1 (amended): for every query, `locate` scans the table rows in document
order; the first row whose lowercased label or lowercased link label equals
the query verbatim wins (label checked before link label), matching stops at
that row, and the returned value is that row's href joined against the index
page's own URL as base, producing an absolute URL. When the query is
lowercase — as every output of `get_normalized_name` is — this matching is
exactly case-insensitive. -/
theorem locate_first_match (pre post : List Row) (r : Row) (name : String)
    (link : Anchor) (h : String)
    (hpre : ∀ p ∈ pre, rowOk p = true ∧ rowMatch p name = false)
    (hm : rowMatch r name = true)
    (ha : r.anchors.head? = some link)
    (hh : link.href = some h) :
    locate ⟨[pre ++ r :: post]⟩ name = .ok (urlJoin URL h) ∧
    isAbsoluteUrl (urlJoin URL h) = true := by
  constructor
  · rw [locate_single, findInRows_pre pre (r :: post) name hpre,
      findInRows_hit r post name link hm ha, hh]
  · exact urlJoin_URL_absolute h

/-- Witness for C1: with a non-matching first row, the query `milton`
matches the second row and `locate` returns its href joined against the
index page URL. -/
theorem locate_first_match_witness :
    locate ⟨[[⟨["Foo"], [⟨"bar", some "/x.pdf"⟩]⟩,
              ⟨["Milton"], [⟨"mi", some "/files/21.pdf"⟩]⟩]]⟩ "milton"
        = .ok (urlJoin URL "/files/21.pdf") ∧
    isAbsoluteUrl (urlJoin URL "/files/21.pdf") = true :=
  locate_first_match [⟨["Foo"], [⟨"bar", some "/x.pdf"⟩]⟩] []
    ⟨["Milton"], [⟨"mi", some "/files/21.pdf"⟩]⟩ "milton"
    ⟨"mi", some "/files/21.pdf"⟩ "/files/21.pdf"
    (by decide) (by decide) rfl rfl

/-- The single-row document used to refute the case-insensitivity part of
C1 as originally stated. -/
def miltonRow : Row := ⟨["Milton"], [⟨"mi", some "/files/21.pdf"⟩]⟩

/-- A document whose only table body holds only `miltonRow`. -/
def miltonDoc : HtmlDoc := ⟨[[miltonRow]]⟩

/-- Counterexample to C1 as stated: the query `MILTON` matches the row
labelled `Milton` case-insensitively, yet `locate` does not return that
row's joined href — it fails with the not-found error, because the code
lowercases only the row fields and compares them against the query
verbatim. -/
theorem locate_case_insensitive_cex :
    rowMatchCI miltonRow "MILTON" = true ∧
    locate miltonDoc "MILTON" = .error (.scheduleNotFound "MILTON") := by
  constructor
  · decide
  · rfl

/-- C3: `locate` fails with `ParseError` when the document has no
table-with-class-marker body section at all, and also fails with
`ParseError` (fatal, not skipped) when an examined row — one reached before
any match — lacks either an emphasized-text element or an anchor element. -/
theorem locate_parse_error_cases :
    (∀ (doc : HtmlDoc) (name : String), doc.tbodies = [] →
        locate doc name = .error .parseError) ∧
    (∀ (pre post : List Row) (r : Row) (name : String),
        (∀ p ∈ pre, rowOk p = true ∧ rowMatch p name = false) →
        rowOk r = false →
        locate ⟨[pre ++ r :: post]⟩ name = .error .parseError) := by
  constructor
  · intro doc name h
    unfold locate find_pdf_link
    rw [h]
    rfl
  · intro pre post r name hpre hbad
    rw [locate_single, findInRows_pre pre (r :: post) name hpre,
      findInRows_bad r post name hbad]

/-- Witness for C3: a document with no table body fails with `ParseError`,
and so does one whose first row has neither a `strong` nor an anchor. -/
theorem locate_parse_error_cases_witness :
    locate ⟨[]⟩ "milton" = .error .parseError ∧
    locate ⟨[[⟨[], []⟩]]⟩ "milton" = .error .parseError := by
  have h := locate_parse_error_cases
  exact ⟨h.1 ⟨[]⟩ "milton" rfl, h.2 [] [] ⟨[], []⟩ "milton" (by decide) rfl⟩

/-- C4: for every query and every well-formed table none of whose rows
matches it — even case-insensitively — `locate` fails with the not-found
error carrying exactly the requested name. -/
theorem locate_no_match_not_found (rows : List Row) (name : String)
    (h : ∀ r ∈ rows, rowOk r = true ∧ rowMatchCI r name = false) :
    locate ⟨[rows]⟩ name = .error (.scheduleNotFound name) := by
  have h2 : ∀ r ∈ rows, rowOk r = true ∧ rowMatch r name = false := by
    intro r hr
    refine ⟨(h r hr).1, ?_⟩
    cases hx : rowMatch r name
    · rfl
    · exact absurd (rowMatch_imp_CI r name hx) (by simp [(h r hr).2])
  have h3 := findInRows_pre rows [] name h2
  rw [List.append_nil] at h3
  rw [locate_single, h3]
  rfl

/-- Witness for C4: the query `nonexistent` against a one-row table fails
with the not-found error carrying `nonexistent`. -/
theorem locate_no_match_not_found_witness :
    locate ⟨[[⟨["Kitchener"], [⟨"ki", some "/files/30.pdf"⟩]⟩]]⟩ "nonexistent"
      = .error (.scheduleNotFound "nonexistent") :=
  locate_no_match_not_found [⟨["Kitchener"], [⟨"ki", some "/files/30.pdf"⟩]⟩]
    "nonexistent" (by decide)

/-- A table whose first row's anchor has no href and whose second row is the
`Milton` row with an href. -/
def hrefLessDoc : HtmlDoc :=
  ⟨[[⟨["Foo"], [⟨"bar", none⟩]⟩,
     ⟨["Milton"], [⟨"mi", some "/files/21.pdf"⟩]⟩]]⟩

/-- C10: a row whose anchor lacks an href causes `ParseError` only when that
row is the first match for the query; a non-matching well-formed row is
passed over without its href being examined, and `locate` can still succeed
or return the not-found error despite such rows. -/
theorem missing_href_only_fatal_on_match :
    (∀ (pre post : List Row) (r : Row) (name : String) (link : Anchor),
        (∀ p ∈ pre, rowOk p = true ∧ rowMatch p name = false) →
        rowMatch r name = true → r.anchors.head? = some link → link.href = none →
        locate ⟨[pre ++ r :: post]⟩ name = .error .parseError) ∧
    (∀ (r : Row) (rest : List Row) (name : String),
        rowOk r = true → rowMatch r name = false →
        findInRows name (r :: rest) = findInRows name rest) ∧
    locate hrefLessDoc "milton" = .ok (urlJoin URL "/files/21.pdf") ∧
    locate hrefLessDoc "zzz" = .error (.scheduleNotFound "zzz") := by
  refine ⟨?_, findInRows_skip, rfl, rfl⟩
  intro pre post r name link hpre hm ha hh
  rw [locate_single, findInRows_pre pre (r :: post) name hpre,
    findInRows_hit r post name link hm ha, hh]

/-- Witness for C10: a matching row with an href-less anchor is fatal, and a
non-matching one is skipped. -/
theorem missing_href_only_fatal_on_match_witness :
    locate ⟨[[⟨["Zed"], [⟨"zz", none⟩]⟩]]⟩ "zed" = .error .parseError ∧
    findInRows "q" [⟨["A"], [⟨"b", none⟩]⟩] = findInRows "q" [] := by
  have h := missing_href_only_fatal_on_match
  exact ⟨h.1 [] [] ⟨["Zed"], [⟨"zz", none⟩]⟩ "zed" ⟨"zz", none⟩
      (by decide) (by decide) rfl rfl,
    h.2.1 ⟨["A"], [⟨"b", none⟩]⟩ [] "q" (by decide) (by decide)⟩

/-- C5: a successful download writes the response body verbatim to the
destination path, overwriting any existing content, so the file's content
equals the body and its length equals the body's length. -/
theorem download_writes_body_verbatim (content : List Nat) (tf : TempFile)
    (fs : FS) :
    (download_pdf (.ok ⟨.ok content⟩) tf fs).1 = .ok () ∧
    fsRead (download_pdf (.ok ⟨.ok content⟩) tf fs).2 tf.filename = some content ∧
    (fsRead (download_pdf (.ok ⟨.ok content⟩) tf fs).2 tf.filename).map List.length
      = some content.length := by
  refine ⟨rfl, ?_, ?_⟩
  · exact fsRead_fsWrite_self _ _ _
  · show (fsRead (fsWrite (fsWrite fs tf.filename []) tf.filename content)
        tf.filename).map List.length = some content.length
    rw [fsRead_fsWrite_self]
    rfl

/-- C9: when the initial GET request fails with a transport error,
`download_pdf` propagates the error and the filesystem — in particular the
destination file — is neither created nor modified. -/
theorem download_get_error_leaves_fs_unchanged (e : Unit) (tf : TempFile)
    (fs : FS) : download_pdf (.error e) tf fs = (.error e, fs) := rfl

/-- C6: acquiring a temp file creates the dedicated subdirectory under the
temp root before the path is used (creation failures swallowed, leaving the
filesystem untouched), and when the handle's scope ends — whether the
download succeeded or failed — the file at its path is removed, with removal
failures swallowed (the scope still returns the download's outcome and the
filesystem as the download left it). -/
theorem tempfile_lifecycle (root name : String)
    (getResult : Except Unit HttpResponse) (fs : FS) :
    ((tempFileGet root name fs).1.filename
        = root ++ "/" ++ TEMP_SUBDIR_NAME ++ "/" ++ name) ∧
    (root ++ "/" ++ TEMP_SUBDIR_NAME ∉ fs.failMkdir →
      root ++ "/" ++ TEMP_SUBDIR_NAME ∈ (tempFileGet root name fs).2.dirs) ∧
    (root ++ "/" ++ TEMP_SUBDIR_NAME ∈ fs.failMkdir →
      (tempFileGet root name fs).2 = fs) ∧
    ((downloadScope root name getResult fs).1
        = (download_pdf getResult (tempFileGet root name fs).1
            (tempFileGet root name fs).2).1) ∧
    ((tempFileGet root name fs).1.filename ∉ fs.failRemove →
      fsRead (downloadScope root name getResult fs).2
        (tempFileGet root name fs).1.filename = none) ∧
    ((tempFileGet root name fs).1.filename ∈ fs.failRemove →
      (downloadScope root name getResult fs).2
        = (download_pdf getResult (tempFileGet root name fs).1
            (tempFileGet root name fs).2).2) := by
  refine ⟨rfl, ?_, ?_, rfl, ?_, ?_⟩
  · intro h
    simp [tempFileGet, createDirAll, h]
  · intro h
    simp [tempFileGet, createDirAll, h]
  · intro h
    have h2 : (tempFileGet root name fs).1.filename
        ∉ (download_pdf getResult (tempFileGet root name fs).1
            (tempFileGet root name fs).2).2.failRemove := by
      rw [download_pdf_failRemove, tempFileGet_failRemove]
      exact h
    show fsRead (tempFileDrop (tempFileGet root name fs).1
        (download_pdf getResult (tempFileGet root name fs).1
          (tempFileGet root name fs).2).2)
      (tempFileGet root name fs).1.filename = none
    unfold tempFileDrop removeFile
    rw [if_neg h2]
    simp [fsRead, find_filter_ne]
  · intro h
    have h2 : (tempFileGet root name fs).1.filename
        ∈ (download_pdf getResult (tempFileGet root name fs).1
            (tempFileGet root name fs).2).2.failRemove := by
      rw [download_pdf_failRemove, tempFileGet_failRemove]
      exact h
    show tempFileDrop (tempFileGet root name fs).1
        (download_pdf getResult (tempFileGet root name fs).1
          (tempFileGet root name fs).2).2
      = (download_pdf getResult (tempFileGet root name fs).1
          (tempFileGet root name fs).2).2
    unfold tempFileDrop removeFile
    rw [if_pos h2]

/-- Witness for C6: on an empty filesystem with no injected failures, the
subdirectory exists after acquisition and the file is gone after the scope
ends, both for a succeeding and for a failing download. -/
theorem tempfile_lifecycle_witness :
    ("/tmp" ++ "/" ++ TEMP_SUBDIR_NAME
        ∈ (tempFileGet "/tmp" "sched.pdf" ⟨[], [], [], []⟩).2.dirs) ∧
    fsRead (downloadScope "/tmp" "sched.pdf" (.ok ⟨.ok [1, 2, 3]⟩)
        ⟨[], [], [], []⟩).2
      (tempFileGet "/tmp" "sched.pdf" ⟨[], [], [], []⟩).1.filename = none ∧
    fsRead (downloadScope "/tmp" "sched.pdf" (.error ())
        ⟨[], [], [], []⟩).2
      (tempFileGet "/tmp" "sched.pdf" ⟨[], [], [], []⟩).1.filename = none :=
  ⟨(tempfile_lifecycle "/tmp" "sched.pdf" (.ok ⟨.ok [1, 2, 3]⟩)
      ⟨[], [], [], []⟩).2.1 (by decide),
   (tempfile_lifecycle "/tmp" "sched.pdf" (.ok ⟨.ok [1, 2, 3]⟩)
      ⟨[], [], [], []⟩).2.2.2.2.1 (by decide),
   (tempfile_lifecycle "/tmp" "sched.pdf" (.error ())
      ⟨[], [], [], []⟩).2.2.2.2.1 (by decide)⟩
